import Mathlib

/-!
Verification of the document-image pipeline of the ai-doc-scanner prototype.

The definitions below are a shallow embedding of the JavaScript sources:
* `applyScanMatrix` — the per-pixel enhancement filter (imageEditor service);
* `estimateByteSize`, `buildScanReadyAsset`, `sanitizeFileName`,
  `generatePdfFromImages`, `convertPdfToDataUri` — the drive service;
* `calculateAutoCrop` / `calculateCropDimensions` — the crop geometry of the
  image-editor screen;
* `applyScanFilterNative` — the native scan-filter path (decode / filter /
  re-encode with a catch-all fallback).

JavaScript numbers are modelled by rationals (`ℚ`), integer-valued pixel data
by `ℤ`/`ℕ`; asynchronous external collaborators (resize/compress primitive,
file system, JPEG codec) are modelled as explicit function parameters.
-/

namespace DocScan

/-! ## Data model and operations (shallow embedding of the sources) -/

/-- JS `Math.round`: round half toward positive infinity. -/
def jsRound (q : ℚ) : ℤ := ⌊q + 1/2⌋

/-- One RGBA pixel of the decoded raster. Channel slots hold JS numbers that
are integers in practice; the alpha slot is optional, mirroring that
`data[i + 3]` can be absent (`?? 255` in the source). -/
structure Pixel where
  r : ℤ
  g : ℤ
  b : ℤ
  a : Option ℤ
deriving DecidableEq, Repr, Inhabited

/-- Body of the `applyScanMatrix` loop for a single pixel. The contrast and
brightness constants are parameters: the two copies of the service in the
sources use `(1.2, 0.0)` and `(1.8, 0.06)`. -/
def applyScanMatrixPixel (contrastFactor brightnessOffset : ℚ) (p : Pixel) : Pixel :=
  let luma : ℚ := (299/1000) * p.r + (587/1000) * p.g + (114/1000) * p.b
  let normalized0 : ℚ := luma / 255
  let normalized1 : ℚ := (normalized0 - 1/2) * contrastFactor + 1/2
  let normalized2 : ℚ := normalized1 + brightnessOffset
  let normalized : ℚ := min 1 (max 0 normalized2)
  let finalValue : ℤ := jsRound (normalized * 255)
  { r := finalValue, g := finalValue, b := finalValue, a := some (p.a.getD 255) }

/-- Function `applyScanMatrix(data)`: the stride-4 `for` loop over the flat
RGBA array, viewed as a map over its pixels. -/
def applyScanMatrix (contrastFactor brightnessOffset : ℚ) (data : List Pixel) : List Pixel :=
  data.map (applyScanMatrixPixel contrastFactor brightnessOffset)

/-- Constants of the first copy of the filter (`contrastFactor = 1.2`,
`brightnessOffset = 0.0`). -/
def scanMatrixConstantsA : ℚ × ℚ := (12/10, 0)

/-- Constants of the second copy of the filter (`contrastFactor = 1.8`,
`brightnessOffset = 0.06`). -/
def scanMatrixConstantsB : ℚ × ℚ := (18/10, 6/100)

/-- Length of the trailing run of `'='` characters: the regex
`/=+$/` match length (`0` when there is no match). -/
def trailingPadding (s : String) : ℕ :=
  (s.data.reverse.takeWhile (fun c => c = '=')).length

/-- Function `estimateByteSize(base64)`. The argument is `Option String` so that the
JS falsy guard `if (!base64) return 0` covers `null`/`undefined` (`none`) and
the empty string alike. The result is an integer (`Math.floor(len * 3 / 4) -
padding`), which the source does not clamp to zero. -/
def estimateByteSize : Option String → ℤ
  | none => 0
  | some s =>
    if s.data.isEmpty then 0
    else ((3 * s.length / 4 : ℕ) : ℤ) - (trailingPadding s : ℤ)

/-- Constant `PDF_MAX_BYTES = 50 * 1024 * 1024` — 50MB limit per backend contract. -/
def PDF_MAX_BYTES : ℕ := 50 * 1024 * 1024

/-- Constant `PDF_MARGIN = 18`. -/
def PDF_MARGIN : ℚ := 18

/-- Constant `SCAN_TARGET_WIDTH = 1500` — starting width for scan-style export. -/
def SCAN_TARGET_WIDTH : ℕ := 1500

/-- Constant `SCAN_MIN_WIDTH = 1000` — do not shrink beyond this. -/
def SCAN_MIN_WIDTH : ℕ := 1000

/-- Constant `SCAN_INITIAL_COMPRESSION = 0.58`. -/
def SCAN_INITIAL_COMPRESSION : ℚ := 58/100

/-- Constant `SCAN_MIN_COMPRESSION = 0.4`. -/
def SCAN_MIN_COMPRESSION : ℚ := 40/100

/-- Constant `SCAN_TARGET_PAGE_BYTES = 350 * 1024`. -/
def SCAN_TARGET_PAGE_BYTES : ℕ := 350 * 1024

/-- Result of one `manipulateAsync` call: the `base64` slot may be absent
(the source checks `!manipulated?.base64`), plus the final dimensions. -/
structure ManipResult where
  base64 : Option String
  width : ℕ
  height : ℕ

/-- The external resize/compress primitive (`manipulateAsync` with
`[{resize: {width}}]` and `{compress, format: JPEG, base64: true}`),
as a pure oracle: uri → resize width → compression → result. -/
abbrev ManipFn := String → ℕ → ℚ → ManipResult

/-- The `lastResult` record kept by the budget loop. -/
structure ScanResult where
  base64 : String
  width : ℕ
  height : ℕ
deriving DecidableEq, Repr

/-- Errors thrown by the drive service (`throw new Error(...)`). -/
inductive PdfError where
  /-- Error 'At least one capture is required to build a PDF'. -/
  | noPages
  /-- Error 'Multi-page builder currently supports up to 10 pages'. -/
  | tooManyPages
  /-- Error 'Missing URI for page N' with N the 1-based page number. -/
  | missingUri (page : ℕ)
  /-- Error 'Failed to convert page N to base64'. -/
  | encodingFailed (page : ℕ)
  /-- Error 'Failed to prepare page N'. -/
  | preparePageFailed (page : ℕ)
deriving DecidableEq, Repr

/-- The `for (attempt = 0; attempt < 4; ...)` byte-budget loop of
`buildScanReadyAsset`, with the remaining attempt count as fuel. Alongside
the source's control flow it threads the list of results produced so far
(so `produced.getLast?` is the source's `lastResult`), which the loop returns
when the fuel runs out. -/
def scanLoop (manip : ManipFn) (uri : String) (pageIndex : ℕ) :
    ℕ → ℕ → ℚ → List ScanResult → Except PdfError (Option ScanResult) × List ScanResult
  | 0, _, _, produced => (.ok produced.getLast?, produced)
  | fuel + 1, width, compression, produced =>
    let manipulated := manip uri width compression
    match manipulated.base64 with
    | none => (.error (.encodingFailed (pageIndex + 1)), produced)
    | some s =>
      if s.data.isEmpty then (.error (.encodingFailed (pageIndex + 1)), produced)
      else
        let lastResult : ScanResult := ⟨s, manipulated.width, manipulated.height⟩
        let byteSize := estimateByteSize (some s)
        if byteSize ≤ (SCAN_TARGET_PAGE_BYTES : ℤ)
            ∨ (width ≤ SCAN_MIN_WIDTH ∧ compression ≤ SCAN_MIN_COMPRESSION) then
          (.ok (some lastResult), produced ++ [lastResult])
        else
          scanLoop manip uri pageIndex fuel
            (max SCAN_MIN_WIDTH (width * 86 / 100))
            (max SCAN_MIN_COMPRESSION ((jsRound ((compression - 7/100) * 100) : ℚ) / 100))
            (produced ++ [lastResult])

/-- Function `buildScanReadyAsset(uri, pageIndex)`: the falsy-URI guard followed by the
four-attempt budget loop. `.ok none` is the (unreachable in the source, since
the loop always runs) `return lastResult` with `lastResult === null`. -/
def buildScanReadyAsset (manip : ManipFn) (uri : Option String) (pageIndex : ℕ) :
    Except PdfError (Option ScanResult) :=
  match uri with
  | none => .error (.missingUri (pageIndex + 1))
  | some u =>
    if u.data.isEmpty then .error (.missingUri (pageIndex + 1))
    else (scanLoop manip u pageIndex 4 SCAN_TARGET_WIDTH SCAN_INITIAL_COMPRESSION []).1

/-- One input capture (`captures[i]`): only its `uri` is consumed, and
`capture?.uri` may be absent. -/
structure Capture where
  uri : Option String
deriving DecidableEq, Repr, Inhabited

/-- A page of the assembled PDF: the embedded JPEG and the page dimensions
(image dimensions plus `PDF_MARGIN * 2`). The cosmetic rectangle draws do not
alter the page list and are not modelled. -/
structure PdfPage where
  image : String
  pageWidth : ℚ
  pageHeight : ℚ
deriving DecidableEq, Repr, Inhabited

/-- The intrinsic dimensions of an embedded JPEG (`pdfDoc.embedJpg` followed
by `jpgImage.scale(1)`), as an oracle from the base64 payload. -/
abbrev DimsFn := String → ℚ × ℚ

/-- The assembled document (`pdfDoc` plus the returned record). -/
structure PdfFile where
  pages : List PdfPage
  name : String
  pageCount : ℕ
deriving DecidableEq, Repr

/-- Page construction for one prepared asset. -/
def mkPdfPage (dims : DimsFn) (base64 : String) : PdfPage :=
  let wh := dims base64
  { image := base64, pageWidth := wh.1 + PDF_MARGIN * 2, pageHeight := wh.2 + PDF_MARGIN * 2 }

/-- The `for (i = 0; i < captures.length; ...)` page loop of
`generatePdfFromImages`, as a recursion carrying the current index. -/
def buildPages (manip : ManipFn) (dims : DimsFn) :
    List Capture → ℕ → Except PdfError (List PdfPage)
  | [], _ => .ok []
  | capture :: rest, i =>
    match buildScanReadyAsset manip capture.uri i with
    | .error e => .error e
    | .ok none => .error (.preparePageFailed (i + 1))
    | .ok (some prepared) =>
      if prepared.base64.data.isEmpty then .error (.preparePageFailed (i + 1))
      else
        match buildPages manip dims rest (i + 1) with
        | .error e => .error e
        | .ok restPages => .ok (mkPdfPage dims prepared.base64 :: restPages)

/-- Function `generatePdfFromImages(captures, title)`: page-count preconditions, then
the page loop, then the returned `{name, mimeType, uri, pageCount}` record
(the cache write is platform I/O and not part of the document value). -/
def generatePdfFromImages (manip : ManipFn) (dims : DimsFn)
    (captures : List Capture) (title : String) : Except PdfError PdfFile :=
  if captures.length = 0 then .error .noPages
  else if 10 < captures.length then .error .tooManyPages
  else
    match buildPages manip dims captures 0 with
    | .error e => .error e
    | .ok pages => .ok { pages := pages, name := title ++ ".pdf", pageCount := captures.length }

/-- Membership in the character class `[a-z0-9_\-.]` with the `i` flag:
ASCII letters, digits, underscore, hyphen, dot. -/
def isAllowedChar (c : Char) : Bool :=
  c.isAlpha || c.isDigit || c = '_' || c = '-' || c = '.'

/-- Effect of `.replace(/_+/g, '_')`: collapse each run of underscores to a
single underscore (drop an underscore directly followed by another). -/
def collapseUnderscores : List Char → List Char
  | [] => []
  | [c] => [c]
  | c₁ :: c₂ :: rest =>
    if c₁ = '_' ∧ c₂ = '_' then collapseUnderscores (c₂ :: rest)
    else c₁ :: collapseUnderscores (c₂ :: rest)

/-- Effect of `.replace(/^_+|_+$/g, '')`: drop the leading and the trailing
run of underscores. -/
def stripEdgeUnderscores (l : List Char) : List Char :=
  ((l.dropWhile (fun c => c = '_')).reverse.dropWhile (fun c => c = '_')).reverse

/-- The replace/collapse/strip pipeline of `sanitizeFileName`, before the
`.slice(0, 80)` truncation. -/
def cleanedName (v : String) : List Char :=
  stripEdgeUnderscores
    (collapseUnderscores (v.data.map (fun c => if isAllowedChar c then c else '_')))

/-- Function `sanitizeFileName(value)`: falsy guard, character replacement,
underscore collapsing and stripping, truncation to 80 characters, and the
trailing `|| 'document'` default. -/
def sanitizeFileName : Option String → String
  | none => "document"
  | some v =>
    if v.data.isEmpty then "document"
    else
      let sliced := (cleanedName v).take 80
      if sliced.isEmpty then "document" else String.mk sliced

/-- An oracle whose output is always the tiny (under-budget) payload "QUJD". -/
def manipSmall : ManipFn := fun _ _ _ => ⟨some "QUJD", 8, 8⟩

/-- An embed-dimensions oracle that reports 8×8 for every payload. -/
def dimsEight : DimsFn := fun _ => (8, 8)

/-- A concrete two-capture input. -/
def capsTwo : List Capture := [⟨some "file:a"⟩, ⟨some "file:b"⟩]

/-- A concrete eleven-capture input (over the cap). -/
def capsEleven : List Capture := List.replicate 11 ⟨some "file:a"⟩

/-- The no-two-consecutive-underscores property, as a chain condition on
adjacent characters. -/
def noDoubleUnderscore (l : List Char) : Prop :=
  List.Chain' (fun x y => ¬(x = '_' ∧ y = '_')) l

/-- An 81-character title: 79 letters, an underscore, one letter. -/
def longTitle : String := String.mk (List.replicate 79 'a' ++ ['_', 'b'])

/-- The example title from the specification's test property. -/
def invoiceTitle : String := "Invoice #8123 / Acorn Design!!"

/-- Platform discriminator (`Platform.OS === 'web'` versus native). -/
inductive Platform where
  | web
  | native
deriving DecidableEq, Repr

/-- The file-system read collaborator (`FileSystem.readAsStringAsync` with
base64 encoding); an `.error` value models a thrown exception's message. -/
abbrev ReadFileFn := String → Except String String

/-- Function `convertPdfToDataUri(pdfUri)`: on web the URI is returned as-is
(both branches of the source return `pdfUri` unchanged, with no size check);
on native the file is read as base64, the 50MB limit is enforced, and the
data URI is returned. The surrounding `try/catch` rethrows any error wrapped
in the conversion prefix. -/
def convertPdfToDataUri (platform : Platform) (readFile : ReadFileFn)
    (pdfUri : String) : Except String String :=
  match platform with
  | .web => .ok (if pdfUri.startsWith "data:" then pdfUri else pdfUri)
  | .native =>
    match readFile pdfUri with
    | .error e => .error ("Failed to convert PDF to data URI: " ++ e)
    | .ok base64 =>
      if (PDF_MAX_BYTES : ℤ) < estimateByteSize (some base64) then
        .error ("Failed to convert PDF to data URI: PDF exceeds the 50MB upload limit")
      else .ok ("data:application/pdf;base64," ++ base64)

/-- A read collaborator returning a small payload. -/
def readOkSmall : ReadFileFn := fun _ => .ok "QUJD"

/-- A base64 payload of 70,000,000 characters (52,500,000 bytes, over the
50MB = 52,428,800-byte ceiling). -/
def hugeBase64 : String := String.mk (List.replicate 70000000 'A')

/-- A read collaborator that always fails (the web path never reads). -/
def readUnavailable : ReadFileFn := fun _ => .error "file system unavailable"

/-- Image or viewport dimensions. -/
structure Dims where
  width : ℚ
  height : ℚ
deriving DecidableEq, Repr

/-- The camera guide frame recorded at capture time, in viewport
coordinates, together with the viewport dimensions. -/
structure GuideFrame where
  x : ℚ
  y : ℚ
  width : ℚ
  height : ℚ
  screenWidth : ℚ
  screenHeight : ℚ
deriving DecidableEq, Repr

/-- An image-space crop rectangle. -/
structure CropRect where
  originX : ℚ
  originY : ℚ
  width : ℚ
  height : ℚ
deriving DecidableEq, Repr

/-- The slots of `currentEdits` read by `calculateAutoCrop`: the pending
rotation, the optional guide frame, and the optional `autoDetectCrop` flag
(strict-equality-compared with `false`, so only `some false` disables). -/
structure EditState where
  rotation : ℤ
  guideFrame : Option GuideFrame
  autoDetectCrop : Option Bool
deriving DecidableEq, Repr

/-- The effective dimensions: width/height swapped when the pending rotation
is not a multiple of 180 degrees (`rotation % 180 !== 0`). -/
def effectiveDims (dims : Dims) (rotation : ℤ) : Dims :=
  if rotation % 180 ≠ 0 then ⟨dims.height, dims.width⟩ else dims

/-- The `aspectRatios` table of the imageEditor service (`free` maps to
`null`, unknown keys to `undefined`). -/
def aspectRatios (key : String) : Option (ℚ × ℚ) :=
  if key = "free" then none
  else if key = "letter" then some (17/2, 11)
  else if key = "a4" then some (210, 297)
  else if key = "legal" then some (17/2, 14)
  else if key = "square" then some (1, 1)
  else none

/-- Function `calculateCropDimensions(imageDimensions, aspectRatio)`: the
centered crop matching a target aspect ratio, used as the fallback when no
guide frame is available. -/
def calculateCropDimensions (imageDimensions : Dims) (aspectRatio : String) :
    Option CropRect :=
  if aspectRatio = "free" then none
  else
    match aspectRatios aspectRatio with
    | none => none
    | some ratio =>
      let targetRatio := ratio.1 / ratio.2
      let imageRatio := imageDimensions.width / imageDimensions.height
      let cropWH : ℚ × ℚ :=
        if targetRatio < imageRatio then
          (imageDimensions.height * targetRatio, imageDimensions.height)
        else
          (imageDimensions.width, imageDimensions.width / targetRatio)
      some { originX := (imageDimensions.width - cropWH.1) / 2,
             originY := (imageDimensions.height - cropWH.2) / 2,
             width := cropWH.1, height := cropWH.2 }

/-- Function `calculateAutoCrop(dims, currentEdits)`: cover-fit mapping of
the guide frame into image space, 10% symmetric buffer, clamping to the
image bounds; falls back to the centered letter crop without a guide frame,
and returns `null` when auto-detection is disabled. -/
def calculateAutoCrop (dims : Dims) (currentEdits : EditState) : Option CropRect :=
  if currentEdits.autoDetectCrop = some false then none
  else
    let effDims := effectiveDims dims currentEdits.rotation
    match currentEdits.guideFrame with
    | some gf =>
      let imgW := effDims.width
      let imgH := effDims.height
      let imageAspect := imgW / imgH
      let screenAspect := gf.screenWidth / gf.screenHeight
      let scale := if screenAspect < imageAspect then imgH / gf.screenHeight
        else imgW / gf.screenWidth
      let offsetX := if screenAspect < imageAspect
        then (imgW - gf.screenWidth * scale) / 2 else 0
      let offsetY := if screenAspect < imageAspect
        then 0 else (imgH - gf.screenHeight * scale) / 2
      let cropWidth0 := gf.width * scale
      let cropHeight0 := gf.height * scale
      let cropX0 := offsetX + gf.x * scale
      let cropY0 := offsetY + gf.y * scale
      let bufferScale : ℚ := 11/10
      let newWidth := cropWidth0 * bufferScale
      let newHeight := cropHeight0 * bufferScale
      let cropX1 := cropX0 - (newWidth - cropWidth0) / 2
      let cropY1 := cropY0 - (newHeight - cropHeight0) / 2
      let cropX := if cropX1 < 0 then 0 else cropX1
      let cropY := if cropY1 < 0 then 0 else cropY1
      let cropWidth := if imgW < cropX + newWidth then imgW - cropX else newWidth
      let cropHeight := if imgH < cropY + newHeight then imgH - cropY else newHeight
      some { originX := cropX, originY := cropY, width := cropWidth, height := cropHeight }
    | none => calculateCropDimensions effDims "letter"

/-- A decoded raster (`jpeg.decode` result): RGBA pixel data plus
dimensions. -/
structure RawImage where
  data : List Pixel
  width : ℕ
  height : ℕ
deriving DecidableEq, Repr

/-- The external collaborators used by `applyScanFilterNative` (file system
read/write and the JPEG codec), each returning `.error` to model a thrown
exception; `decode` returns `none` to model a falsy `decoded`/
`decoded.data`. `cacheDir` and `timestamp` mirror `FileSystem.cacheDirectory`
and `Date.now()`. -/
structure FilterOps where
  readFile : String → Except String String
  decode : String → Except String (Option RawImage)
  encode : RawImage → ℕ → Except String String
  writeFile : String → String → Except String Unit
  cacheDir : String
  timestamp : ℕ

/-- Function `applyScanFilterNative(uri)`: read, decode, `applyScanMatrix`,
re-encode at quality 95, write to the cache. The source wraps the whole body
in `try/catch` and returns the *original* `uri` on every failure and on
every falsy intermediate result, so this embedding is a total function into
`String` — it can never surface an error. -/
def applyScanFilterNative (ops : FilterOps) (cf bo : ℚ) (uri : String) : String :=
  match ops.readFile uri with
  | .error _ => uri
  | .ok readBase64 =>
    if readBase64.data.isEmpty then uri
    else
      match ops.decode readBase64 with
      | .error _ => uri
      | .ok none => uri
      | .ok (some decoded) =>
        match ops.encode { decoded with data := applyScanMatrix cf bo decoded.data } 95 with
        | .error _ => uri
        | .ok filteredBase64 =>
          let scanUri := ops.cacheDir ++ "scan-" ++ toString ops.timestamp ++ ".jpg"
          match ops.writeFile scanUri filteredBase64 with
          | .error _ => uri
          | .ok _ => scanUri

/-- An oracle whose resize/compress result carries no base64 payload. -/
def manipNoBase64 : ManipFn := fun _ _ _ => ⟨none, 0, 0⟩

/-- Collaborators for the scan filter whose JPEG re-encode always throws. -/
def encodeFailOps : FilterOps where
  readFile := fun _ => .ok "QUJD"
  decode := fun _ => .ok (some ⟨[⟨1, 2, 3, some 255⟩], 1, 1⟩)
  encode := fun _ _ => .error "encode failed"
  writeFile := fun _ _ => .ok ()
  cacheDir := "cache/"
  timestamp := 0

/-! ## Theorems for the claims -/

theorem jsRound_nonneg {q : ℚ} (h : 0 ≤ q) : 0 ≤ jsRound q := by
  have : (0 : ℚ) ≤ q + 1/2 := by linarith
  simpa [jsRound] using Int.floor_nonneg.mpr this

theorem jsRound_le_255 {q : ℚ} (h : q ≤ 255) : jsRound q ≤ 255 := by
  have h3 : jsRound q < 256 := by
    simpa [jsRound] using Int.floor_lt.mpr (by push_cast; linarith)
  omega

theorem jsRound_clamped_mem (x : ℚ) :
    0 ≤ jsRound (min 1 (max 0 x) * 255) ∧ jsRound (min 1 (max 0 x) * 255) ≤ 255 := by
  have h0 : (0 : ℚ) ≤ min 1 (max 0 x) := le_min (by norm_num) (le_max_left 0 x)
  have h1 : min 1 (max 0 x) ≤ 1 := min_le_left _ _
  exact ⟨jsRound_nonneg (by nlinarith), jsRound_le_255 (by nlinarith)⟩

theorem applyScanMatrixPixel_spec (cf bo : ℚ) (p : Pixel) :
    (applyScanMatrixPixel cf bo p).r = (applyScanMatrixPixel cf bo p).g ∧
    (applyScanMatrixPixel cf bo p).g = (applyScanMatrixPixel cf bo p).b ∧
    0 ≤ (applyScanMatrixPixel cf bo p).r ∧ (applyScanMatrixPixel cf bo p).r ≤ 255 ∧
    (applyScanMatrixPixel cf bo p).a = some (p.a.getD 255) := by
  refine ⟨rfl, rfl, ?_, ?_, rfl⟩
  · exact (jsRound_clamped_mem _).1
  · exact (jsRound_clamped_mem _).2

/-- C1. After `applyScanMatrix`, every pixel of the buffer has equal red,
green and blue channels, each an integer in `[0, 255]` (for every 8-bit input
buffer and every choice of `contrastFactor`/`brightnessOffset`, hence in
particular the configured constants), and the alpha channel equals its input
value, defaulting to 255 when absent. -/
theorem C1_scan_matrix_grayscale_range_alpha (cf bo : ℚ) (data : List Pixel)
    (_h8bit : ∀ p ∈ data, 0 ≤ p.r ∧ p.r ≤ 255 ∧ 0 ≤ p.g ∧ p.g ≤ 255 ∧ 0 ≤ p.b ∧ p.b ≤ 255)
    (i : ℕ) (hi : i < data.length) :
    ((applyScanMatrix cf bo data).getD i default).r
      = ((applyScanMatrix cf bo data).getD i default).g ∧
    ((applyScanMatrix cf bo data).getD i default).g
      = ((applyScanMatrix cf bo data).getD i default).b ∧
    0 ≤ ((applyScanMatrix cf bo data).getD i default).r ∧
    ((applyScanMatrix cf bo data).getD i default).r ≤ 255 ∧
    ((applyScanMatrix cf bo data).getD i default).a
      = some ((data.getD i default).a.getD 255) := by
  have hget : data[i]? = some data[i] := List.getElem?_eq_getElem hi
  have hout : (applyScanMatrix cf bo data).getD i default
      = applyScanMatrixPixel cf bo data[i] := by
    simp [applyScanMatrix, List.getD, List.getElem?_map, hget]
  have hin : data.getD i default = data[i] := by
    simp [List.getD, hget]
  rw [hout, hin]
  exact applyScanMatrixPixel_spec cf bo _

/-- Witness for C1 at a concrete buffer, pixel and the first configured
constant pair. -/
theorem C1_scan_matrix_witness :
    ((applyScanMatrix (12/10) 0 [⟨10, 20, 30, none⟩]).getD 0 default).r
      = ((applyScanMatrix (12/10) 0 [⟨10, 20, 30, none⟩]).getD 0 default).g ∧
    ((applyScanMatrix (12/10) 0 [⟨10, 20, 30, none⟩]).getD 0 default).g
      = ((applyScanMatrix (12/10) 0 [⟨10, 20, 30, none⟩]).getD 0 default).b ∧
    0 ≤ ((applyScanMatrix (12/10) 0 [⟨10, 20, 30, none⟩]).getD 0 default).r ∧
    ((applyScanMatrix (12/10) 0 [⟨10, 20, 30, none⟩]).getD 0 default).r ≤ 255 ∧
    ((applyScanMatrix (12/10) 0 [⟨10, 20, 30, none⟩]).getD 0 default).a
      = some (([⟨10, 20, 30, none⟩] : List Pixel).getD 0 default |>.a.getD 255) :=
  C1_scan_matrix_grayscale_range_alpha (12/10) 0 [⟨10, 20, 30, none⟩]
    (by decide) 0 (by decide)

theorem scanLoop_trace_spec (manip : ManipFn) (uri : String) (idx : ℕ) :
    ∀ (fuel width : ℕ) (compression : ℚ) (produced : List ScanResult),
      (scanLoop manip uri idx fuel width compression produced).2.length
          ≤ produced.length + fuel ∧
      ∀ r, (scanLoop manip uri idx fuel width compression produced).1 = .ok (some r) →
        (scanLoop manip uri idx fuel width compression produced).2.getLast? = some r := by
  intro fuel
  induction fuel with
  | zero =>
    intro w c pr
    refine ⟨by simp [scanLoop], ?_⟩
    intro r h
    simp only [scanLoop, Except.ok.injEq] at h
    simpa [scanLoop] using h
  | succ fuel ih =>
    intro w c pr
    cases hb : (manip uri w c).base64 with
    | none =>
      refine ⟨?_, ?_⟩
      · simp only [scanLoop, hb]
        omega
      · intro r h
        simp only [scanLoop, hb] at h
        exact Except.noConfusion h
    | some s =>
      by_cases hs : s.data.isEmpty
      · refine ⟨?_, ?_⟩
        · simp only [scanLoop, hb, if_pos hs]
          omega
        · intro r h
          simp only [scanLoop, hb, if_pos hs] at h
          exact Except.noConfusion h
      · by_cases hcond : estimateByteSize (some s) ≤ (SCAN_TARGET_PAGE_BYTES : ℤ)
            ∨ (w ≤ SCAN_MIN_WIDTH ∧ c ≤ SCAN_MIN_COMPRESSION)
        · refine ⟨?_, ?_⟩
          · simp only [scanLoop, hb, if_neg hs, if_pos hcond,
              List.length_append, List.length_cons, List.length_nil]
            omega
          · intro r h
            simp only [scanLoop, hb, if_neg hs, if_pos hcond, Except.ok.injEq,
              Option.some.injEq] at h
            simp only [scanLoop, hb, if_neg hs, if_pos hcond]
            simp [← h]
        · have step := ih (max SCAN_MIN_WIDTH (w * 86 / 100))
            (max SCAN_MIN_COMPRESSION ((jsRound ((c - 7/100) * 100) : ℚ) / 100))
            (pr ++ [⟨s, (manip uri w c).width, (manip uri w c).height⟩])
          refine ⟨?_, ?_⟩
          · simp only [scanLoop, hb, if_neg hs, if_neg hcond]
            have := step.1
            simpa using this.trans (by simp; omega)
          · intro r h
            have h2 := step.2 r
            simp only [scanLoop, hb, if_neg hs, if_neg hcond] at h ⊢
            exact h2 h

/-- C3. For every resize/compress oracle, source image and starting
parameters at or above the width and quality floors, the byte-budget loop of
`buildScanReadyAsset` performs at most 4 resize-and-compress attempts (the
trace of produced results has length at most 4) and terminates; whenever it
returns a result, that result is the most recently produced one (the last
element of the trace), which may still be over budget. -/
theorem C3_budget_loop_bounded (manip : ManipFn) (uri : String) (pageIndex : ℕ)
    (startWidth : ℕ) (startCompression : ℚ)
    (_hw : SCAN_MIN_WIDTH ≤ startWidth)
    (_hc : SCAN_MIN_COMPRESSION ≤ startCompression) :
    (scanLoop manip uri pageIndex 4 startWidth startCompression []).2.length ≤ 4 ∧
    ∀ r, (scanLoop manip uri pageIndex 4 startWidth startCompression []).1
        = .ok (some r) →
      (scanLoop manip uri pageIndex 4 startWidth startCompression []).2.getLast?
        = some r := by
  have h := scanLoop_trace_spec manip uri pageIndex 4 startWidth startCompression []
  simpa using h

/-- Witness for C3 at a concrete oracle and the source's actual starting
parameters. -/
theorem C3_budget_loop_witness :
    (SCAN_MIN_WIDTH ≤ SCAN_TARGET_WIDTH
      ∧ SCAN_MIN_COMPRESSION ≤ SCAN_INITIAL_COMPRESSION) ∧
    ((scanLoop manipSmall "file:a" 0 4 SCAN_TARGET_WIDTH SCAN_INITIAL_COMPRESSION []).2.length ≤ 4 ∧
    ∀ r, (scanLoop manipSmall "file:a" 0 4 SCAN_TARGET_WIDTH SCAN_INITIAL_COMPRESSION []).1
        = .ok (some r) →
      (scanLoop manipSmall "file:a" 0 4 SCAN_TARGET_WIDTH SCAN_INITIAL_COMPRESSION []).2.getLast?
        = some r) :=
  ⟨⟨by decide, by norm_num [SCAN_MIN_COMPRESSION, SCAN_INITIAL_COMPRESSION]⟩,
   C3_budget_loop_bounded manipSmall "file:a" 0 SCAN_TARGET_WIDTH SCAN_INITIAL_COMPRESSION
     (by decide) (by norm_num [SCAN_MIN_COMPRESSION, SCAN_INITIAL_COMPRESSION])⟩

theorem buildPages_spec (manip : ManipFn) (dims : DimsFn) :
    ∀ (cs : List Capture) (i0 : ℕ) (ps : List PdfPage),
      buildPages manip dims cs i0 = .ok ps →
      ps.length = cs.length ∧
      ∀ j, j < cs.length →
        ∃ r, buildScanReadyAsset manip (cs.getD j ⟨none⟩).uri (i0 + j) = .ok (some r) ∧
          (ps.getD j default).image = r.base64
  | [], i0, ps, h => by
    simp only [buildPages, Except.ok.injEq] at h
    refine ⟨by simp [← h], ?_⟩
    intro j hj
    simp at hj
  | c :: rest, i0, ps, h => by
    cases hb : buildScanReadyAsset manip c.uri i0 with
    | error e =>
      rw [buildPages, hb] at h
      exact Except.noConfusion h
    | ok op =>
      cases op with
      | none =>
        rw [buildPages, hb] at h
        exact Except.noConfusion h
      | some prepared =>
        by_cases hempty : prepared.base64.data.isEmpty
        · rw [buildPages, hb] at h
          simp only [if_pos hempty] at h
          exact Except.noConfusion h
        · cases hrest : buildPages manip dims rest (i0 + 1) with
          | error e =>
            rw [buildPages, hb] at h
            simp only [if_neg hempty, hrest] at h
            exact Except.noConfusion h
          | ok restPages =>
            have ih := buildPages_spec manip dims rest (i0 + 1) restPages hrest
            rw [buildPages, hb] at h
            simp only [if_neg hempty, hrest, Except.ok.injEq] at h
            refine ⟨by simp [← h, ih.1], ?_⟩
            intro j hj
            cases j with
            | zero =>
              refine ⟨prepared, by simpa using hb, ?_⟩
              simp [← h, mkPdfPage]
            | succ j =>
              have hj' : j < rest.length := by simpa using hj
              obtain ⟨r, hr1, hr2⟩ := ih.2 j hj'
              refine ⟨r, ?_, ?_⟩
              · have harith : i0 + (j + 1) = i0 + 1 + j := by omega
                rw [harith]
                simpa using hr1
              · simpa [← h] using hr2

/-- C2. Whenever `generatePdfFromImages` succeeds on a list of 1 to 10
captures, the produced document has exactly one page per capture, and page
`i` embeds the prepared image (`buildScanReadyAsset` result) of capture `i`:
the output page order equals the input order exactly. -/
theorem C2_page_order (manip : ManipFn) (dims : DimsFn) (captures : List Capture)
    (title : String) (doc : PdfFile)
    (hlen1 : 1 ≤ captures.length) (hlen10 : captures.length ≤ 10)
    (h : generatePdfFromImages manip dims captures title = .ok doc) :
    doc.pages.length = captures.length ∧
    ∀ i, i < captures.length →
      ∃ r, buildScanReadyAsset manip (captures.getD i ⟨none⟩).uri i = .ok (some r) ∧
        (doc.pages.getD i default).image = r.base64 := by
  have hne : ¬ captures.length = 0 := by omega
  have hle : ¬ 10 < captures.length := by omega
  rw [generatePdfFromImages, if_neg hne, if_neg hle] at h
  cases hbp : buildPages manip dims captures 0 with
  | error e =>
    rw [hbp] at h
    exact Except.noConfusion h
  | ok pages =>
    rw [hbp] at h
    simp only [Except.ok.injEq] at h
    have spec := buildPages_spec manip dims captures 0 pages hbp
    constructor
    · rw [← h]
      exact spec.1
    · intro i hi
      obtain ⟨r, hr1, hr2⟩ := spec.2 i hi
      refine ⟨r, by simpa using hr1, ?_⟩
      rw [← h]
      exact hr2

/-- Witness for C2 with a two-capture input and concrete oracles. -/
theorem C2_page_order_witness :
    (1 ≤ capsTwo.length ∧ capsTwo.length ≤ 10) ∧
    ∃ doc, generatePdfFromImages manipSmall dimsEight capsTwo "t" = .ok doc ∧
      (doc.pages.length = capsTwo.length ∧
       ∀ i, i < capsTwo.length →
         ∃ r, buildScanReadyAsset manipSmall (capsTwo.getD i ⟨none⟩).uri i = .ok (some r) ∧
           (doc.pages.getD i default).image = r.base64) :=
  ⟨⟨by decide, by decide⟩,
   ⟨_, rfl, C2_page_order manipSmall dimsEight capsTwo "t" _ (by decide) (by decide) rfl⟩⟩

theorem scanLoop_error_encoding (manip : ManipFn) (uri : String) (idx : ℕ) :
    ∀ (fuel width : ℕ) (compression : ℚ) (produced : List ScanResult) (e : PdfError),
      (scanLoop manip uri idx fuel width compression produced).1 = .error e →
      e = .encodingFailed (idx + 1)
  | 0, w, c, pr, e, h => by
    simp only [scanLoop] at h
    exact Except.noConfusion h
  | fuel + 1, w, c, pr, e, h => by
    cases hb : (manip uri w c).base64 with
    | none =>
      simp only [scanLoop, hb, Except.error.injEq] at h
      exact h.symm
    | some s =>
      by_cases hs : s.data.isEmpty
      · simp only [scanLoop, hb, if_pos hs, Except.error.injEq] at h
        exact h.symm
      · by_cases hcond : estimateByteSize (some s) ≤ (SCAN_TARGET_PAGE_BYTES : ℤ)
            ∨ (w ≤ SCAN_MIN_WIDTH ∧ c ≤ SCAN_MIN_COMPRESSION)
        · simp only [scanLoop, hb, if_neg hs, if_pos hcond] at h
          exact Except.noConfusion h
        · simp only [scanLoop, hb, if_neg hs, if_neg hcond] at h
          exact scanLoop_error_encoding manip uri idx fuel _ _ _ e h

theorem buildScanReadyAsset_error (manip : ManipFn) (uri : Option String) (idx : ℕ)
    (e : PdfError) (h : buildScanReadyAsset manip uri idx = .error e) :
    e = .missingUri (idx + 1) ∨ e = .encodingFailed (idx + 1) := by
  cases uri with
  | none =>
    simp only [buildScanReadyAsset, Except.error.injEq] at h
    exact Or.inl h.symm
  | some u =>
    by_cases hu : u.data.isEmpty
    · simp only [buildScanReadyAsset, if_pos hu, Except.error.injEq] at h
      exact Or.inl h.symm
    · simp only [buildScanReadyAsset, if_neg hu] at h
      exact Or.inr (scanLoop_error_encoding manip u idx 4 _ _ _ e h)

theorem buildPages_error_not_count (manip : ManipFn) (dims : DimsFn) :
    ∀ (cs : List Capture) (i : ℕ) (e : PdfError),
      buildPages manip dims cs i = .error e →
      e ≠ .noPages ∧ e ≠ .tooManyPages
  | [], i, e, h => by
    simp only [buildPages] at h
    exact Except.noConfusion h
  | c :: rest, i, e, h => by
    cases hb : buildScanReadyAsset manip c.uri i with
    | error e' =>
      rw [buildPages, hb] at h
      simp only [Except.error.injEq] at h
      rcases buildScanReadyAsset_error manip c.uri i e' hb with h' | h' <;>
        simp [← h, h']
    | ok op =>
      cases op with
      | none =>
        rw [buildPages, hb] at h
        simp only [Except.error.injEq] at h
        simp [← h]
      | some prepared =>
        by_cases hempty : prepared.base64.data.isEmpty
        · rw [buildPages, hb] at h
          simp only [if_pos hempty, Except.error.injEq] at h
          simp [← h]
        · cases hrest : buildPages manip dims rest (i + 1) with
          | error e'' =>
            rw [buildPages, hb] at h
            simp only [if_neg hempty, hrest, Except.error.injEq] at h
            have := buildPages_error_not_count manip dims rest (i + 1) e'' hrest
            simpa [← h] using this
          | ok restPages =>
            rw [buildPages, hb] at h
            simp only [if_neg hempty, hrest] at h
            exact Except.noConfusion h

/-- C6. The document assembler fails with the no-pages error on an empty
capture list and with the too-many-pages error on a list of more than 10
captures, in both cases before any page is processed (the result is exactly
that error, and no partial artifact exists since only `Except.ok` carries a
document); for 1 to 10 captures the count precondition never causes a
failure: the result is never one of those two errors. -/
theorem C6_page_count_preconditions (manip : ManipFn) (dims : DimsFn)
    (captures : List Capture) (title : String) :
    (captures.length = 0 →
      generatePdfFromImages manip dims captures title = .error .noPages) ∧
    (10 < captures.length →
      generatePdfFromImages manip dims captures title = .error .tooManyPages) ∧
    (1 ≤ captures.length → captures.length ≤ 10 →
      generatePdfFromImages manip dims captures title ≠ .error .noPages ∧
      generatePdfFromImages manip dims captures title ≠ .error .tooManyPages) := by
  refine ⟨?_, ?_, ?_⟩
  · intro h0
    rw [generatePdfFromImages, if_pos h0]
  · intro h10
    have hne : ¬ captures.length = 0 := by omega
    rw [generatePdfFromImages, if_neg hne, if_pos h10]
  · intro h1 h10
    have hne : ¬ captures.length = 0 := by omega
    have hle : ¬ 10 < captures.length := by omega
    rw [generatePdfFromImages, if_neg hne, if_neg hle]
    cases hbp : buildPages manip dims captures 0 with
    | error e =>
      have := buildPages_error_not_count manip dims captures 0 e hbp
      constructor
      · intro hcontr
        simp only [Except.error.injEq] at hcontr
        exact this.1 hcontr
      · intro hcontr
        simp only [Except.error.injEq] at hcontr
        exact this.2 hcontr
    | ok pages =>
      exact ⟨fun hcontr => Except.noConfusion hcontr, fun hcontr => Except.noConfusion hcontr⟩

/-- Witness for C6: the empty list, an 11-capture list and a 2-capture list. -/
theorem C6_page_count_witness :
    generatePdfFromImages manipSmall dimsEight [] "t" = .error .noPages ∧
    generatePdfFromImages manipSmall dimsEight capsEleven "t" = .error .tooManyPages ∧
    generatePdfFromImages manipSmall dimsEight capsTwo "t" ≠ .error .noPages ∧
    generatePdfFromImages manipSmall dimsEight capsTwo "t" ≠ .error .tooManyPages :=
  ⟨(C6_page_count_preconditions manipSmall dimsEight [] "t").1 rfl,
   (C6_page_count_preconditions manipSmall dimsEight capsEleven "t").2.1 (by decide),
   ((C6_page_count_preconditions manipSmall dimsEight capsTwo "t").2.2 (by decide) (by decide)).1,
   ((C6_page_count_preconditions manipSmall dimsEight capsTwo "t").2.2 (by decide) (by decide)).2⟩

theorem mem_collapseUnderscores {c : Char} :
    ∀ {l : List Char}, c ∈ collapseUnderscores l → c ∈ l
  | [], h => by simp [collapseUnderscores] at h
  | [a], h => by simpa [collapseUnderscores] using h
  | a :: b :: t, h => by
    rw [collapseUnderscores] at h
    by_cases hab : a = '_' ∧ b = '_'
    · rw [if_pos hab] at h
      exact List.mem_cons_of_mem a (mem_collapseUnderscores h)
    · rw [if_neg hab] at h
      rcases List.mem_cons.mp h with h | h
      · exact h ▸ List.mem_cons_self a _
      · exact List.mem_cons_of_mem a (mem_collapseUnderscores h)

theorem head?_collapseUnderscores :
    ∀ (a : Char) (l : List Char), (collapseUnderscores (a :: l)).head? = some a
  | a, [] => rfl
  | a, b :: t => by
    rw [collapseUnderscores]
    by_cases hab : a = '_' ∧ b = '_'
    · rw [if_pos hab, head?_collapseUnderscores b t, hab.1, hab.2]
    · rw [if_neg hab]
      rfl

theorem chain'_collapseUnderscores :
    ∀ l : List Char, noDoubleUnderscore (collapseUnderscores l)
  | [] => by simp [collapseUnderscores, noDoubleUnderscore]
  | [c] => by simp [collapseUnderscores, noDoubleUnderscore]
  | a :: b :: t => by
    rw [noDoubleUnderscore, collapseUnderscores]
    by_cases hab : a = '_' ∧ b = '_'
    · rw [if_pos hab]
      exact chain'_collapseUnderscores (b :: t)
    · rw [if_neg hab, List.chain'_cons']
      refine ⟨?_, chain'_collapseUnderscores (b :: t)⟩
      intro y hy
      rw [head?_collapseUnderscores b t, Option.mem_def, Option.some.injEq] at hy
      exact hy ▸ hab

theorem head?_dropWhile_not {α : Type} (p : α → Bool) :
    ∀ (l : List α) (c : α), (l.dropWhile p).head? = some c → p c = false
  | [], c, h => by simp [List.dropWhile] at h
  | a :: t, c, h => by
    rw [List.dropWhile_cons] at h
    by_cases hp : p a = true
    · rw [if_pos hp] at h
      exact head?_dropWhile_not p t c h
    · rw [if_neg hp] at h
      simp only [List.head?_cons, Option.some.injEq] at h
      rw [← h]
      exact eq_false_of_ne_true hp

theorem stripEdgeUnderscores_prefixOf (l : List Char) :
    stripEdgeUnderscores l <+: l.dropWhile (fun c => c = '_') := by
  unfold stripEdgeUnderscores
  have h := List.dropWhile_suffix (l := (l.dropWhile (fun c => c = '_')).reverse)
    (fun c => c = '_')
  have h2 : ((l.dropWhile (fun c => c = '_')).reverse.dropWhile (fun c => c = '_')).reverse
      <+: (l.dropWhile (fun c => c = '_')).reverse.reverse := List.reverse_prefix.mpr h
  simpa using h2

theorem stripEdgeUnderscores_infixOf (l : List Char) : stripEdgeUnderscores l <:+: l :=
  (stripEdgeUnderscores_prefixOf l).isInfix.trans (List.dropWhile_suffix _).isInfix

theorem head?_stripEdgeUnderscores (l : List Char) (c : Char)
    (h : (stripEdgeUnderscores l).head? = some c) : ¬ c = '_' := by
  have hne : stripEdgeUnderscores l ≠ [] := by
    intro hnil
    rw [hnil] at h
    exact Option.noConfusion h
  obtain ⟨t, ht⟩ := stripEdgeUnderscores_prefixOf l
  have : (l.dropWhile (fun c => c = '_')).head? = some c := by
    rw [← ht, List.head?_append_of_ne_nil _ hne, h]
  have := head?_dropWhile_not _ _ _ this
  simpa using this

theorem getLast?_stripEdgeUnderscores (l : List Char) (c : Char)
    (h : (stripEdgeUnderscores l).getLast? = some c) : ¬ c = '_' := by
  rw [stripEdgeUnderscores, List.getLast?_reverse] at h
  have := head?_dropWhile_not _ _ _ h
  simpa using this

theorem mem_cleanedName {c : Char} {v : String} (h : c ∈ cleanedName v) :
    isAllowedChar c = true := by
  have h1 : c ∈ collapseUnderscores
      (v.data.map (fun c => if isAllowedChar c then c else '_')) :=
    (stripEdgeUnderscores_infixOf _).subset h
  have h2 := mem_collapseUnderscores h1
  obtain ⟨a, _, ha⟩ := List.mem_map.mp h2
  by_cases hall : isAllowedChar a
  · rw [if_pos hall] at ha
    exact ha ▸ hall
  · rw [if_neg hall] at ha
    rw [← ha]
    decide

theorem chain'_cleanedName (v : String) : noDoubleUnderscore (cleanedName v) :=
  List.Chain'.infix (chain'_collapseUnderscores _) (stripEdgeUnderscores_infixOf _)

/-- The claim's original form is falsified below on `longTitle`; this is the
amended statement. C4 (amended). For every input, the title sanitizer
returns a string containing only characters from the class
`[A-Za-z0-9_.-]`, with no two consecutive underscores, no leading
underscore, and length at most 80; it returns "document" when the input is
missing, empty, or reduces to the empty string; and there is no trailing
underscore provided the cleaned (pre-truncation) string already fits in 80
characters — the `.slice(0, 80)` truncation, which the source applies
*after* stripping, can otherwise leave a trailing underscore. -/
theorem C4_sanitize_amended (v : Option String) :
    (∀ c ∈ (sanitizeFileName v).data, isAllowedChar c = true) ∧
    noDoubleUnderscore (sanitizeFileName v).data ∧
    (sanitizeFileName v).data.head? ≠ some '_' ∧
    (sanitizeFileName v).data.length ≤ 80 ∧
    (v = none → sanitizeFileName v = "document") ∧
    (∀ s, v = some s → cleanedName s = [] → sanitizeFileName v = "document") ∧
    (∀ s, v = some s → (cleanedName s).length ≤ 80 →
      (sanitizeFileName v).data.getLast? ≠ some '_') := by
  have hdoc1 : ∀ c ∈ ("document" : String).data, isAllowedChar c = true := by decide
  have hdoc2 : noDoubleUnderscore ("document" : String).data := by
    simp [noDoubleUnderscore, List.chain'_cons']
  have hdoc3 : ("document" : String).data.head? ≠ some '_' := by decide
  have hdoc4 : ("document" : String).data.length ≤ 80 := by decide
  have hdoc5 : ("document" : String).data.getLast? ≠ some '_' := by decide
  cases v with
  | none =>
    exact ⟨hdoc1, hdoc2, hdoc3, hdoc4, fun _ => rfl,
      fun s hs => Option.noConfusion hs, fun s hs => Option.noConfusion hs⟩
  | some s =>
    by_cases hse : s.data.isEmpty
    · rw [show sanitizeFileName (some s) = "document" by
        rw [sanitizeFileName, if_pos hse]]
      exact ⟨hdoc1, hdoc2, hdoc3, hdoc4, fun h => Option.noConfusion h,
        fun _ _ _ => rfl, fun _ _ _ => hdoc5⟩
    · by_cases hsl : ((cleanedName s).take 80).isEmpty
      · have hout : sanitizeFileName (some s) = "document" := by
          simp [sanitizeFileName, hse, hsl]
        rw [hout]
        exact ⟨hdoc1, hdoc2, hdoc3, hdoc4, fun h => Option.noConfusion h,
          fun _ _ _ => rfl, fun _ _ _ => hdoc5⟩
      · have hout : sanitizeFileName (some s) = String.mk ((cleanedName s).take 80) := by
          simp [sanitizeFileName, hse, hsl]
        have hdata : (sanitizeFileName (some s)).data = (cleanedName s).take 80 := by
          rw [hout]
        have hpre : (cleanedName s).take 80 <+: cleanedName s := List.take_prefix 80 _
        have hne : (cleanedName s).take 80 ≠ [] := by
          simpa using hsl
        refine ⟨?_, ?_, ?_, ?_, fun h => Option.noConfusion h, ?_, ?_⟩
        · intro c hc
          rw [hdata] at hc
          exact mem_cleanedName (hpre.subset hc)
        · rw [noDoubleUnderscore, hdata]
          exact List.Chain'.prefix (chain'_cleanedName s) hpre
        · rw [hdata]
          obtain ⟨t, ht⟩ := hpre
          intro hcontr
          have hhead : (cleanedName s).head? = some '_' := by
            rw [← ht, List.head?_append_of_ne_nil _ hne, hcontr]
          exact head?_stripEdgeUnderscores _ '_' hhead rfl
        · rw [hdata, List.length_take]
          exact min_le_left _ _
        · intro s' hs' hnil
          rw [Option.some.injEq] at hs'
          subst hs'
          rw [hnil] at hne
          simp at hne
        · intro s' hs' hlen
          rw [Option.some.injEq] at hs'
          subst hs'
          rw [hdata, List.take_of_length_le hlen]
          intro hcontr
          exact getLast?_stripEdgeUnderscores _ '_' hcontr rfl

/-- Counterexample to C4 as stated: on `longTitle` the sanitizer output ends
in an underscore (the truncation to 80 characters happens after the edge
underscores are stripped and cuts directly behind an underscore), refuting
the claim that the result never has a trailing underscore. -/
theorem C4_sanitize_counterexample :
    (sanitizeFileName (some longTitle)).data.getLast? = some '_' := by decide

/-- Witness for C4 (amended) at the specification's example title. -/
theorem C4_sanitize_witness :
    (∀ c ∈ (sanitizeFileName (some invoiceTitle)).data, isAllowedChar c = true) ∧
    noDoubleUnderscore (sanitizeFileName (some invoiceTitle)).data ∧
    (sanitizeFileName (some invoiceTitle)).data.head? ≠ some '_' ∧
    (sanitizeFileName (some invoiceTitle)).data.length ≤ 80 ∧
    (some invoiceTitle = none → sanitizeFileName (some invoiceTitle) = "document") ∧
    (∀ s, some invoiceTitle = some s → cleanedName s = [] →
      sanitizeFileName (some invoiceTitle) = "document") ∧
    (∀ s, some invoiceTitle = some s → (cleanedName s).length ≤ 80 →
      (sanitizeFileName (some invoiceTitle)).data.getLast? ≠ some '_') :=
  C4_sanitize_amended (some invoiceTitle)

/-- C10 (amended). The byte-size estimator is total: it returns
`floor(3 · length / 4)` minus the count of trailing `'='` padding
characters, and a `null`/`undefined` or empty input yields exactly 0. The
result is nonnegative for every input of base64 shape (length a multiple of
4 and at most 2 trailing padding characters); on arbitrary strings it can be
negative, as the counterexample shows — the source subtracts the padding
without clamping. -/
theorem C10_estimator_amended (s : String)
    (hlen : s.length % 4 = 0) (hpad : trailingPadding s ≤ 2) :
    estimateByteSize none = 0 ∧
    estimateByteSize (some "") = 0 ∧
    estimateByteSize (some s) = ((3 * s.length / 4 : ℕ) : ℤ) - (trailingPadding s : ℤ) ∧
    0 ≤ estimateByteSize (some s) := by
  have hempty : s.data.isEmpty = true → s.length = 0 ∧ trailingPadding s = 0 := by
    intro h
    have hnil : s.data = [] := by simpa using h
    constructor
    · have h0 : s.data.length = 0 := by rw [hnil]; rfl
      exact h0
    · simp [trailingPadding, hnil]
  refine ⟨rfl, rfl, ?_, ?_⟩
  · by_cases h : s.data.isEmpty
    · obtain ⟨h1, h2⟩ := hempty h
      simp [estimateByteSize, h, h1, h2]
    · simp [estimateByteSize, h]
  · by_cases h : s.data.isEmpty
    · simp [estimateByteSize, h]
    · have hL : 1 ≤ s.length := by
        have hnil : s.data ≠ [] := by simpa using h
        have : s.data.length ≠ 0 := fun h0 => hnil (List.length_eq_zero.mp h0)
        have hlen' : s.length = s.data.length := rfl
        omega
      have hval : estimateByteSize (some s)
          = ((3 * s.length / 4 : ℕ) : ℤ) - (trailingPadding s : ℤ) := by
        simp [estimateByteSize, h]
      rw [hval]
      omega

/-- Witness for C10 (amended) at a well-formed base64 payload. -/
theorem C10_estimator_witness :
    ("QUJD" : String).length % 4 = 0 ∧ trailingPadding "QUJD" ≤ 2 ∧
    (estimateByteSize none = 0 ∧
     estimateByteSize (some "") = 0 ∧
     estimateByteSize (some "QUJD")
        = ((3 * ("QUJD" : String).length / 4 : ℕ) : ℤ) - (trailingPadding "QUJD" : ℤ) ∧
     0 ≤ estimateByteSize (some "QUJD")) :=
  ⟨by decide, by decide, C10_estimator_amended "QUJD" (by decide) (by decide)⟩

/-- Counterexample to C10 as stated: on the input consisting of a single
`'='` the estimator returns `floor(3/4) - 1 = -1`, which is negative,
refuting the claimed nonnegativity for every string. -/
theorem C10_estimator_counterexample : estimateByteSize (some "=") < 0 := by decide

/-- C5 (amended). On the native path, whenever the PDF file is read
successfully, serialization fails (with the size-limit message wrapped in
the conversion-error prefix) exactly when the estimated byte size of the
base64 payload exceeds the 50MB ceiling, and otherwise returns the data-URI
payload; the oversize artifact is never truncated or passed through on this
path. On the web path (see the counterexample) the artifact is passed
through without any size check. -/
theorem C5_native_size_check (readFile : ReadFileFn) (pdfUri base64 : String)
    (h : readFile pdfUri = .ok base64) :
    convertPdfToDataUri .native readFile pdfUri =
      if (PDF_MAX_BYTES : ℤ) < estimateByteSize (some base64) then
        .error ("Failed to convert PDF to data URI: PDF exceeds the 50MB upload limit")
      else .ok ("data:application/pdf;base64," ++ base64) := by
  simp only [convertPdfToDataUri, h]

/-- Witness for C5 (amended) with a small payload on the native path. -/
theorem C5_native_size_check_witness :
    readOkSmall "file:doc.pdf" = .ok "QUJD" ∧
    convertPdfToDataUri .native readOkSmall "file:doc.pdf" =
      if (PDF_MAX_BYTES : ℤ) < estimateByteSize (some "QUJD") then
        .error ("Failed to convert PDF to data URI: PDF exceeds the 50MB upload limit")
      else .ok ("data:application/pdf;base64," ++ "QUJD") :=
  ⟨rfl, C5_native_size_check readOkSmall "file:doc.pdf" "QUJD" rfl⟩

theorem estimateByteSize_hugeBase64 : estimateByteSize (some hugeBase64) = 52500000 := by
  have hdata : hugeBase64.data = List.replicate 70000000 'A' := rfl
  have hne : (List.replicate 70000000 'A').isEmpty = false := by
    rw [show (70000000 : ℕ) = 69999999 + 1 from rfl, List.replicate_succ]
    rfl
  have hlen : hugeBase64.length = 70000000 := by
    have : hugeBase64.length = hugeBase64.data.length := rfl
    rw [this, hdata, List.length_replicate]
  have hpad : trailingPadding hugeBase64 = 0 := by
    rw [trailingPadding, hdata, List.reverse_replicate]
    rw [show (70000000 : ℕ) = 69999999 + 1 from rfl, List.replicate_succ]
    rfl
  have hif : hugeBase64.data.isEmpty = false := by rw [hdata, hne]
  simp only [estimateByteSize, hif, Bool.false_eq_true, if_false, hlen, hpad]
  norm_num

/-- Counterexample to C5 as stated: on the web path the (already data-URI)
artifact built from a payload of 52,500,000 bytes — well over the 50MB
ceiling — is returned unchanged by `convertPdfToDataUri`, not rejected: the
oversize artifact is silently passed through, refuting the claim for every
platform. -/
theorem C5_oversize_counterexample :
    (PDF_MAX_BYTES : ℤ) < estimateByteSize (some hugeBase64) ∧
    convertPdfToDataUri .web readUnavailable
        ("data:application/pdf;base64," ++ hugeBase64)
      = .ok ("data:application/pdf;base64," ++ hugeBase64) := by
  constructor
  · rw [estimateByteSize_hugeBase64]
    norm_num [PDF_MAX_BYTES]
  · simp [convertPdfToDataUri]

/-- C7. If the viewport dimensions equal the (positive) image dimensions,
the rotation is 0, and the guide frame equals the full viewport, the crop
geometry resolver returns exactly the full-image rectangle: the 10%
symmetric buffer expansion is clamped back to the image bounds. -/
theorem C7_noop_viewport_full_image (W H : ℚ) (hW : 0 < W) (hH : 0 < H) :
    calculateAutoCrop ⟨W, H⟩ ⟨0, some ⟨0, 0, W, H, W, H⟩, none⟩
      = some ⟨0, 0, W, H⟩ := by
  have hWne : W ≠ 0 := ne_of_gt hW
  simp only [calculateAutoCrop, effectiveDims]
  norm_num [div_self hWne]
  have hw1 : W < W * (11/10) := by linarith
  have hh1 : H < H * (11/10) := by linarith
  refine ⟨by simp, fun h => by linarith, fun h => by linarith, ?_, ?_⟩
  · rw [if_pos hw1, if_pos (show W < 0 + W * (11/10) by linarith)]
    ring
  · rw [if_pos hh1, if_pos (show H < 0 + H * (11/10) by linarith)]
    ring

/-- Witness for C7 at a 100×100 image and viewport. -/
theorem C7_noop_viewport_witness :
    ((0 : ℚ) < 100 ∧ (0 : ℚ) < 100) ∧
    calculateAutoCrop ⟨100, 100⟩ ⟨0, some ⟨0, 0, 100, 100, 100, 100⟩, none⟩
      = some ⟨0, 0, 100, 100⟩ :=
  ⟨⟨by norm_num, by norm_num⟩,
   C7_noop_viewport_full_image 100 100 (by norm_num) (by norm_num)⟩

/-- C8 (amended). For every positive image dimensions, every guide frame
with a positive viewport, and every rotation, the crop geometry resolver is
total and — with auto-detection not disabled — always returns a rectangle
(never `null`): its origin is clamped to be nonnegative and `origin + size`
is clamped to the effective image bounds, but its width or height may be
nonpositive when the mapped-and-buffered frame falls outside the image; the
source has no `null` fallback for that degenerate case. -/
theorem C8_crop_clamp_bounds (dims : Dims) (edits : EditState) (gf : GuideFrame)
    (hgf : edits.guideFrame = some gf)
    (hauto : edits.autoDetectCrop ≠ some false)
    (_hW : 0 < dims.width) (_hH : 0 < dims.height)
    (_hsw : 0 < gf.screenWidth) (_hsh : 0 < gf.screenHeight) :
    ∃ r, calculateAutoCrop dims edits = some r ∧
      0 ≤ r.originX ∧ 0 ≤ r.originY ∧
      r.originX + r.width ≤ (effectiveDims dims edits.rotation).width ∧
      r.originY + r.height ≤ (effectiveDims dims edits.rotation).height := by
  simp only [calculateAutoCrop, hgf, if_neg hauto]
  refine ⟨_, rfl, ?_, ?_, ?_, ?_⟩ <;>
    · dsimp only
      split_ifs <;> linarith

/-- Witness for C8 (amended) at a rotated 50×80 image with an off-center
guide frame. -/
theorem C8_crop_clamp_witness :
    ((⟨90, some ⟨5, 5, 20, 30, 50, 80⟩, some true⟩ : EditState).guideFrame
        = some ⟨5, 5, 20, 30, 50, 80⟩ ∧
     (⟨90, some ⟨5, 5, 20, 30, 50, 80⟩, some true⟩ : EditState).autoDetectCrop
        ≠ some false) ∧
    ∃ r, calculateAutoCrop ⟨50, 80⟩ ⟨90, some ⟨5, 5, 20, 30, 50, 80⟩, some true⟩
        = some r ∧
      0 ≤ r.originX ∧ 0 ≤ r.originY ∧
      r.originX + r.width
        ≤ (effectiveDims ⟨50, 80⟩
            (⟨90, some ⟨5, 5, 20, 30, 50, 80⟩, some true⟩ : EditState).rotation).width ∧
      r.originY + r.height
        ≤ (effectiveDims ⟨50, 80⟩
            (⟨90, some ⟨5, 5, 20, 30, 50, 80⟩, some true⟩ : EditState).rotation).height :=
  ⟨⟨rfl, by decide⟩,
   C8_crop_clamp_bounds ⟨50, 80⟩ ⟨90, some ⟨5, 5, 20, 30, 50, 80⟩, some true⟩
     ⟨5, 5, 20, 30, 50, 80⟩ rfl (by decide)
     (by norm_num : (0 : ℚ) < 50) (by norm_num : (0 : ℚ) < 80)
     (by norm_num : (0 : ℚ) < 50) (by norm_num : (0 : ℚ) < 80)⟩

/-- Counterexample to C8 as stated: a guide frame lying entirely to the
right of the image maps to a rectangle whose clamped width is negative
(`-199/2`), yet the resolver returns that rectangle instead of the `null`
the claim requires when clamping reduces width to `≤ 0`. -/
theorem C8_crop_clamp_counterexample :
    calculateAutoCrop ⟨100, 100⟩ ⟨0, some ⟨200, 0, 10, 10, 100, 100⟩, none⟩
      = some ⟨399/2, 0, -(199/2), 11⟩ ∧ (-(199/2) : ℚ) < 0 := by
  constructor
  · norm_num [calculateAutoCrop, effectiveDims]
    intro h
    exact Option.noConfusion h
  · norm_num

theorem buildScanReadyAsset_encode_failure (manip : ManipFn) (u : String) (i : ℕ)
    (hne : ¬ u.data.isEmpty = true)
    (hb : (manip u SCAN_TARGET_WIDTH SCAN_INITIAL_COMPRESSION).base64 = none) :
    buildScanReadyAsset manip (some u) i = .error (.encodingFailed (i + 1)) := by
  rw [buildScanReadyAsset, if_neg hne, show (4 : ℕ) = 3 + 1 from rfl]
  simp only [scanLoop, hb]

/-- C9 (amended). A missing/falsy base64 from the resize-compress primitive
during the budget loop makes page preparation fail with the encoding error,
and document generation propagates that error to the caller; but a failure
of the re-encode performed by the scan-mode enhancement filter is caught by
the filter's `try/catch` and silently replaced by a fallback result — the
original, unfiltered URI — rather than surfacing an encoding error. -/
theorem C9_encode_failure_handling :
    (∀ (manip : ManipFn) (u : String) (i : ℕ),
      ¬ u.data.isEmpty = true →
      (manip u SCAN_TARGET_WIDTH SCAN_INITIAL_COMPRESSION).base64 = none →
      buildScanReadyAsset manip (some u) i = .error (.encodingFailed (i + 1))) ∧
    (∀ (manip : ManipFn) (dims : DimsFn) (u : String) (title : String),
      ¬ u.data.isEmpty = true →
      (manip u SCAN_TARGET_WIDTH SCAN_INITIAL_COMPRESSION).base64 = none →
      generatePdfFromImages manip dims [⟨some u⟩] title
        = .error (.encodingFailed 1)) ∧
    (∀ (ops : FilterOps) (cf bo : ℚ) (uri b64 : String) (img : RawImage) (e : String),
      ops.readFile uri = .ok b64 →
      ¬ b64.data.isEmpty = true →
      ops.decode b64 = .ok (some img) →
      ops.encode { img with data := applyScanMatrix cf bo img.data } 95 = .error e →
      applyScanFilterNative ops cf bo uri = uri) := by
  refine ⟨buildScanReadyAsset_encode_failure, ?_, ?_⟩
  · intro manip dims u title hne hb
    have h0 := buildScanReadyAsset_encode_failure manip u 0 hne hb
    simp [generatePdfFromImages, buildPages, h0]
  · intro ops cf bo uri b64 img e hread hbne hdec henc
    simp only [applyScanFilterNative, hread, if_neg hbne, hdec, henc]

/-- Witness for C9 (amended) at concrete failing collaborators. -/
theorem C9_encode_failure_witness :
    buildScanReadyAsset manipNoBase64 (some "file:a") 0
      = .error (.encodingFailed 1) ∧
    generatePdfFromImages manipNoBase64 dimsEight [⟨some "file:a"⟩] "t"
      = .error (.encodingFailed 1) ∧
    applyScanFilterNative encodeFailOps (12/10) 0 "orig.jpg" = "orig.jpg" :=
  ⟨C9_encode_failure_handling.1 manipNoBase64 "file:a" 0 (by decide) rfl,
   C9_encode_failure_handling.2.1 manipNoBase64 dimsEight "file:a" "t" (by decide) rfl,
   C9_encode_failure_handling.2.2 encodeFailOps (12/10) 0 "orig.jpg" "QUJD"
     ⟨[⟨1, 2, 3, some 255⟩], 1, 1⟩ "encode failed" rfl (by decide) rfl rfl⟩

/-- Counterexample to C9 as stated: with collaborators whose re-encode step
fails, the scan-mode enhancement filter returns the original URI as a
successful result — no `EncodingFailed` error reaches the caller, refuting
the claim that an encode failure at any step (including the filter's
re-encode) is propagated rather than replaced by a fallback. -/
theorem C9_encode_failure_counterexample :
    applyScanFilterNative encodeFailOps (12/10) 0 "orig.jpg" = "orig.jpg" := rfl

end DocScan
